/-
Verification of the media-tweak preview/reconciliation core.

The Rust sources are shallowly embedded:
  * `f64` values that only flow through comparisons, additions,
    subtractions and multiplications are modelled as `ℚ` (these operations
    are exact on the inputs the claims use); where NaN behaviour matters
    (the clamp dead-code analysis) `f64` is modelled as `Option ℚ` with
    `none` playing NaN, so that every comparison involving NaN is false,
    as in IEEE-754.
  * `i64` casts saturate, as `as i64` does in Rust (`i64cap`).
  * ffmpeg containers, decoders and the packet hash are abstracted by
    explicit data (`DecContainer`, `Codec`) and a hash-function parameter;
    the decode loop itself is translated line by line from the source.
-/
import Mathlib

set_option autoImplicit false

/-! ## f64 with NaN (`Option ℚ`, `none` = NaN) -/

/-- IEEE `>` on `f64` modelled over `Option ℚ`: any comparison with NaN
(`none`) is false. -/
def fgt : Option ℚ → Option ℚ → Bool
  | some a, some b => decide (b < a)
  | _, _ => false

/-- IEEE `<` on `f64` modelled over `Option ℚ`: any comparison with NaN
(`none`) is false. -/
def flt : Option ℚ → Option ℚ → Bool
  | some a, some b => decide (a < b)
  | _, _ => false

/-- The numeric fields of `State` that `State::clamp_numbers` reads and
writes, with full NaN fidelity (`src/main.rs:400-412`). -/
structure FState where
  start : Option ℚ
  end_ : Option ℚ
  input_length : Option ℚ
  deriving DecidableEq, Repr

/-- First clamp rule: `if self.end > self.input_length { self.end = self.input_length; }` -/
def rule1F : FState → FState
  | ⟨st, en, len⟩ => if fgt en len then ⟨st, len, len⟩ else ⟨st, en, len⟩

/-- Second clamp rule: `if self.start > self.end { self.start = self.end; }` -/
def rule2F : FState → FState
  | ⟨st, en, len⟩ => if fgt st en then ⟨en, en, len⟩ else ⟨st, en, len⟩

/-- Third clamp rule: `if self.end < self.start { self.end = self.start; }` -/
def rule3F : FState → FState
  | ⟨st, en, len⟩ => if flt en st then ⟨st, st, len⟩ else ⟨st, en, len⟩

/-- `State::clamp_numbers` (`src/main.rs:400-412`), NaN-aware model: the
three ordered rules run in sequence. -/
def clamp_numbersF (s : FState) : FState :=
  rule3F (rule2F (rule1F s))

/-- `clamp_numbersF`, the entry point used by the clamp claims over
ordinary (non-NaN) values, injected via `some`. -/
def clamp_numbers (s : FState) : FState :=
  clamp_numbersF s

theorem fgt_some (a b : ℚ) : fgt (some a) (some b) = decide (b < a) := rfl

theorem flt_some (a b : ℚ) : flt (some a) (some b) = decide (a < b) := rfl

theorem rule1F_some (s e d : ℚ) :
    rule1F ⟨some s, some e, some d⟩ = ⟨some s, some (min e d), some d⟩ := by
  simp only [rule1F, fgt_some]
  split_ifs with h
  · simp at h
    rw [min_eq_right h.le]
  · simp at h
    rw [min_eq_left h]

theorem rule2F_some (s e d : ℚ) :
    rule2F ⟨some s, some e, some d⟩ = ⟨some (min s e), some e, some d⟩ := by
  simp only [rule2F, fgt_some]
  split_ifs with h
  · simp at h
    rw [min_eq_right h.le]
  · simp at h
    rw [min_eq_left h]

theorem rule3F_noop (s e d : ℚ) (h : s ≤ e) :
    rule3F ⟨some s, some e, some d⟩ = ⟨some s, some e, some d⟩ := by
  simp only [rule3F, flt_some]
  rw [if_neg]
  simp [not_lt.mpr h]

/-- Closed form of the clamp pass on finite values. -/
theorem clamp_numbers_some (s e d : ℚ) :
    clamp_numbers ⟨some s, some e, some d⟩ =
      ⟨some (min s (min e d)), some (min e d), some d⟩ := by
  unfold clamp_numbers clamp_numbersF
  rw [rule1F_some, rule2F_some, rule3F_noop _ _ _ (min_le_right s (min e d))]

/-! ### Clamp theorems (C1, C10) -/

/-- C10: for every input, including NaN (`none`) in any field, after the
first two clamp rules the third rule's guard `end < start` is false, so the
third rule is dead code and the whole pass never increases `end`. -/
theorem clamp_third_rule_dead (s : FState) :
    flt (rule2F (rule1F s)).end_ (rule2F (rule1F s)).start = false ∧
    clamp_numbersF s = rule2F (rule1F s) := by
  have key : ∀ t : FState, flt (rule2F t).end_ (rule2F t).start = false := by
    rintro ⟨st, en, len⟩
    simp only [rule2F]
    split_ifs with hg
    · rcases en with _ | a <;> simp [flt]
    · rcases st with _ | a <;> rcases en with _ | b <;> simp_all [flt, fgt]
  have noop : ∀ t : FState, flt t.end_ t.start = false → rule3F t = t := by
    rintro ⟨st, en, len⟩ h
    simp only [rule3F]
    simp only at h
    rw [h]
    simp
  exact ⟨key (rule1F s), noop _ (key (rule1F s))⟩

/-- C1 (corrected): the clamp pass, applied to finite values with positive
duration, establishes `start ≤ end ≤ duration` and is idempotent; the lower
bound `0 ≤ start` claimed by the spec is not enforced. -/
theorem clamp_pass_order_and_idempotent (s e d : ℚ) (hd : 0 < d) :
    ∃ s1 e1 : ℚ,
      clamp_numbers ⟨some s, some e, some d⟩ = ⟨some s1, some e1, some d⟩ ∧
      s1 ≤ e1 ∧ e1 ≤ d ∧
      clamp_numbers ⟨some s1, some e1, some d⟩ = ⟨some s1, some e1, some d⟩ := by
  clear hd
  refine ⟨min s (min e d), min e d, clamp_numbers_some s e d, min_le_right _ _,
    min_le_right _ _, ?_⟩
  rw [clamp_numbers_some]
  rw [min_eq_left (min_le_right e d), min_eq_left (min_le_right s (min e d))]

/-- Witness for `clamp_pass_order_and_idempotent` at `(5, 3, 4)`. -/
theorem clamp_pass_witness :
    (0 : ℚ) < 4 ∧
    ∃ s1 e1 : ℚ,
      clamp_numbers ⟨some 5, some 3, some 4⟩ = ⟨some s1, some e1, some 4⟩ ∧
      s1 ≤ e1 ∧ e1 ≤ 4 ∧
      clamp_numbers ⟨some s1, some e1, some 4⟩ = ⟨some s1, some e1, some 4⟩ :=
  ⟨by norm_num, clamp_pass_order_and_idempotent 5 3 4 (by norm_num)⟩

/-- C1 counterexample: with `start = 0`, `end = -5`, `duration = 10 > 0`,
one clamp pass leaves `start = -5`, violating the claimed `0 ≤ start`. -/
theorem clamp_pass_counterexample :
    (0 : ℚ) < 10 ∧
    clamp_numbers ⟨some 0, some (-5), some 10⟩ =
      ⟨some (-5), some (-5), some 10⟩ ∧
    ¬ ((0 : ℚ) ≤ -5) := by
  refine ⟨by norm_num, ?_, by norm_num⟩
  rw [clamp_numbers_some]
  norm_num

/-! ## main.rs: application state and preview coordinator -/

/-- Rust `f64::round`: round half away from zero. -/
def rustRound (q : ℚ) : ℤ :=
  if 0 ≤ q then ⌊q + 1/2⌋ else ⌈q - 1/2⌉

/-- Rust `as i64` on a finite float: saturating cast. -/
def i64cap (z : ℤ) : ℤ :=
  max (-(2 ^ 63)) (min (2 ^ 63 - 1) z)

/-- `Preview` from `src/main.rs:25-29`, the coordinator's request record.
Its derived `PartialEq` compares both fields; it has no hash field. -/
structure Preview where
  seek : ℤ
  input : String
  deriving DecidableEq, Repr

/-- `State` from `src/main.rs:144-166` (display handles kept as raw byte
buffers). Finite `f64` fields are modelled as `ℚ`. -/
structure State where
  input : String
  input_changed : Bool
  input_length : ℚ
  start : ℚ
  end_ : ℚ
  number_changed : Bool
  use_video : Bool
  use_audio : Bool
  last_start_preview : Preview
  last_end_preview : Preview
  start_preview : Option (List ℕ)
  end_preview : Option (List ℕ)
  output : String
  output_is_generated : Bool
  deriving DecidableEq, Repr

/-- `State::default()`: zeroed numbers, empty strings, default previews. -/
def initState : State :=
  { input := "", input_changed := false, input_length := 0, start := 0,
    end_ := 0, number_changed := false, use_video := false,
    use_audio := false, last_start_preview := ⟨0, ""⟩,
    last_end_preview := ⟨0, ""⟩, start_preview := none, end_preview := none,
    output := "", output_is_generated := false }

/-- The start-slot request built by `State::create_preview_images`
(`src/main.rs:514-517`): seek `(start * 1_000_000.0).round() as i64`. -/
def mk_start_preview (s : State) : Preview :=
  ⟨i64cap (rustRound (s.start * 1000000)), s.input⟩

/-- The end-slot seek target (`src/main.rs:519-524`): seek 0.5 s early when
`end > input_length - 0.1`, so that a decodable frame follows the target. -/
def end_seek_micros (end_ input_length : ℚ) : ℤ :=
  i64cap (rustRound
    ((if input_length - 1/10 < end_ then end_ - 1/2 else end_) * 1000000))

/-- The end-slot request built by `State::create_preview_images`
(`src/main.rs:518-526`). -/
def mk_end_preview (s : State) : Preview :=
  ⟨end_seek_micros s.end_ s.input_length, s.input⟩

/-- `State::create_preview_images` (`src/main.rs:507-550`). Returns the
updated state together with the list of decode jobs actually launched
(duplicates of the recorded last requests launch nothing). -/
def create_preview_images (s : State) : State × List Preview :=
  if s.use_video = false then (s, [])
  else
    let start_preview := mk_start_preview s
    let end_preview := mk_end_preview s
    let s1 := if start_preview = s.last_start_preview then s
              else { s with last_start_preview := start_preview }
    let s2 := if end_preview = s.last_end_preview then s1
              else { s1 with last_end_preview := end_preview }
    ((s2),
      (if start_preview = s.last_start_preview then [] else [start_preview]) ++
      (if end_preview = s.last_end_preview then [] else [end_preview]))

/-! ## Path derivation (`src/main.rs:445-473`, `src/fs.rs:17-37`) -/

/-- Characters after the last `/`: `Path::file_name`, modelled for paths
without a trailing slash and without `.`/`..` final components. -/
def fileNameChars (l : List Char) : List Char :=
  (l.reverse.takeWhile (fun c => c ≠ '/')).reverse

/-- Characters up to and including the last `/` (empty when there is no
slash): the part `with_file_name`/`set_file_name` keeps. -/
def dirChars (l : List Char) : List Char :=
  (l.reverse.dropWhile (fun c => c ≠ '/')).reverse

/-- Rust `file_stem`/`extension` on a non-empty file name: split at the
last `.`; a name whose only `.` is leading keeps it all as the stem and
has no extension. -/
def stemExt (name : List Char) : List Char × Option (List Char) :=
  let revName := name.reverse
  let afterDot := revName.takeWhile (fun c => c ≠ '.')
  if afterDot.length = name.length then (name, none)
  else
    let before := ((revName.dropWhile (fun c => c ≠ '.')).drop 1).reverse
    if before = [] then (name, none) else (before, some afterDot.reverse)

/-- The derived file name `<stem>_edited.<extension or "mkv">`, with stem
defaulting to `"media"` when the path has no file name. -/
def editedName (path : String) : List Char :=
  let name := fileNameChars path.toList
  let se := if name = [] then (("media".toList : List Char), none) else stemExt name
  se.1 ++ "_edited.".toList ++ (se.2.getD "mkv".toList)

/-- `State::generate_output_path` (`src/main.rs:445-473`): replaces the
input's file name with `<stem>_edited.<ext or "mkv">` and marks the output
as generated. -/
def generate_output_path (s : State) : State :=
  { s with output_is_generated := true,
           output := ⟨dirChars s.input.toList ++ editedName s.input⟩ }

/-- `modify_path` (`src/fs.rs:17-37`): same renaming via `set_file_name`. -/
def modify_path (path : String) : String :=
  ⟨dirChars path.toList ++ editedName path⟩

/-! ## Probing (`src/main.rs:414-443`, `src/media.rs:199-218`) -/

/-- Stream media kinds distinguished by the probe. -/
inductive MediaType
  | video
  | audio
  | subtitle
  | other
  deriving DecidableEq, Repr

/-- A successfully opened container: its stream list in container order and
its duration in `AV_TIME_BASE` (microsecond) units. -/
structure Container where
  streams : List MediaType
  duration : ℤ
  deriving DecidableEq, Repr

/-- Rust `Iterator::find`/`any` on a *consumed* iterator: scan forward and
stop after the first match; `some rest` is the iterator's remaining tail,
`none` means the iterator was exhausted without a match. -/
def findSplit (p : MediaType → Bool) : List MediaType → Option (List MediaType)
  | [] => none
  | x :: xs => if p x then some xs else findSplit p xs

/-- `Message::OutputChange` handling (`src/main.rs:199-202`): a user edit
stores the text and clears the generated flag. -/
def outputChange (s : State) (str : String) : State :=
  { s with output := str, output_is_generated := false }

/-- `State::update_from_input` (`src/main.rs:414-443`) on a successful
probe: set the length, or the track flags to true when the (single,
consumed) stream iterator finds them, regenerate the output path when it
is empty or auto-generated, and set `end` to the duration. -/
def update_from_input (s : State) (c : Container) : State :=
  let s0 := { s with input_length := (c.duration : ℚ) / 1000000 }
  let vres := findSplit (fun t => decide (t = MediaType.video)) c.streams
  let s1 := if vres.isSome then { s0 with use_video := true } else s0
  let rest := vres.getD []
  let s2 := if (findSplit (fun t => decide (t = MediaType.audio)) rest).isSome
            then { s1 with use_audio := true } else s1
  let s3 := if s2.output.isEmpty || s2.output_is_generated
            then generate_output_path s2 else s2
  { s3 with end_ := s3.input_length }

/-- `Media` from `src/media.rs:125-137`. -/
structure Media where
  start : ℚ
  dur : ℚ
  input : String
  output : String
  use_video : Bool
  use_audio : Bool
  use_subs : Bool
  use_extra_streams : Bool
  deriving DecidableEq, Repr

/-- `Media::default()`. -/
def initMedia : Media :=
  { start := 0, dur := 0, input := "", output := "", use_video := false,
    use_audio := false, use_subs := false, use_extra_streams := false }

/-- `Media::update_video_params` (`src/media.rs:199-218`): three `any`
calls on one consumed stream iterator set the typed flags,
`use_extra_streams` compares the stream count with their sum, and the
duration in seconds is returned. -/
def update_video_params (m : Media) (c : Container) : Media × ℚ :=
  let vres := findSplit (fun t => decide (t = MediaType.video)) c.streams
  let ares := findSplit (fun t => decide (t = MediaType.audio)) (vres.getD [])
  let sres := findSplit (fun t => decide (t = MediaType.subtitle)) (ares.getD [])
  let uv := vres.isSome
  let ua := ares.isSome
  let us := sres.isSome
  ({ m with use_video := uv, use_audio := ua, use_subs := us,
            use_extra_streams :=
              decide (c.streams.length >
                (cond uv 1 0) + (cond ua 1 0) + (cond us 1 0)) },
   (c.duration : ℚ) / 1000000)

/-! ### Coordinator and reconciler theorems (C2, C3, C4, C5, C8, C9) -/

/-- C2 (amended): whenever `end > duration - 0.1`, the end-slot request
seeks to `round((end - 0.5) * 1_000_000)` (saturated into i64 range)
instead of `round(end * 1_000_000)`. -/
theorem end_seek_compensation (s : State) (h : s.input_length - 1/10 < s.end_) :
    (mk_end_preview s).seek = i64cap (rustRound ((s.end_ - 1/2) * 1000000)) := by
  show end_seek_micros s.end_ s.input_length = _
  unfold end_seek_micros
  rw [if_pos h]

/-- Witness for `end_seek_compensation` at duration 10 s, end 9.95 s. -/
theorem end_seek_compensation_witness :
    ((10 : ℚ) - 1/10 < 199/20) ∧
    (mk_end_preview { initState with end_ := 199/20, input_length := 10 }).seek =
      i64cap (rustRound (((199/20 : ℚ) - 1/2) * 1000000)) :=
  ⟨by norm_num, end_seek_compensation _ (by norm_num)⟩

/-- C2 counterexample: at duration 10 s and end 9.95 s the end-slot seek
target is 9450000 μs (9.45 s), not the claimed `9.5 * 1_000_000` μs. -/
theorem end_seek_compensation_counterexample :
    (mk_end_preview { initState with end_ := 199/20, input_length := 10 }).seek
      = 9450000 ∧ (9450000 : ℤ) ≠ 9500000 := by
  constructor
  · show end_seek_micros (199/20) 10 = 9450000
    unfold end_seek_micros
    rw [if_pos (by norm_num : (10 : ℚ) - 1/10 < 199/20)]
    rw [show ((199/20 : ℚ) - 1/2) * 1000000 = 9450000 by norm_num]
    unfold rustRound
    rw [if_pos (by norm_num : (0 : ℚ) ≤ 9450000)]
    rw [show (⌊(9450000 : ℚ) + 1/2⌋ : ℤ) = 9450000 by norm_num]
    unfold i64cap
    rw [min_eq_right (by norm_num), max_eq_right (by norm_num)]
  · decide

/-- C9: with the video flag off, a preview refresh is a no-op: it launches
no decode job and leaves the whole state — including both recorded last
requests and both displayed images — unchanged. -/
theorem no_video_no_previews (s : State) (h : s.use_video = false) :
    create_preview_images s = (s, []) := by
  simp [create_preview_images, h]

/-- Witness for `no_video_no_previews` at the default state. -/
theorem no_video_no_previews_witness :
    create_preview_images initState = (initState, []) :=
  no_video_no_previews initState (by decide)

theorem cpi_state (s : State) (hv : s.use_video = true) :
    (create_preview_images s).1 =
      { s with last_start_preview := mk_start_preview s,
               last_end_preview := mk_end_preview s } := by
  unfold create_preview_images
  rw [if_neg (by simp [hv])]
  by_cases h1 : mk_start_preview s = s.last_start_preview <;>
    by_cases h2 : mk_end_preview s = s.last_end_preview <;>
    simp only [h1, h2, if_pos, if_neg, if_true, if_false] <;>
    cases s <;> simp_all

theorem cpi_dup_nil (s : State) (h1 : mk_start_preview s = s.last_start_preview)
    (h2 : mk_end_preview s = s.last_end_preview) :
    (create_preview_images s).2 = [] := by
  unfold create_preview_images
  by_cases hv : s.use_video = false <;> simp [hv, h1, h2]

/-- C5: requests are duplicates exactly when `seek` and `input` agree (the
coordinator's `Preview` carries nothing else, so no hash can distinguish
them), and a second refresh from the state left by a refresh with the same
parameters launches zero decode jobs. -/
theorem preview_dedup :
    (∀ p q : Preview, p = q ↔ (p.seek = q.seek ∧ p.input = q.input)) ∧
    (∀ s : State, (create_preview_images (create_preview_images s).1).2 = []) := by
  constructor
  · rintro ⟨ps, pi⟩ ⟨qs, qi⟩
    constructor
    · intro h
      cases h
      exact ⟨rfl, rfl⟩
    · rintro ⟨h1, h2⟩
      simp only at h1 h2
      rw [h1, h2]
  · intro s
    rcases hv : s.use_video with _ | _
    · simp [no_video_no_previews s hv]
    · have hs := cpi_state s hv
      apply cpi_dup_nil
      · rw [hs]
        simp [mk_start_preview]
      · rw [hs]
        simp [mk_end_preview, end_seek_micros]

/-- C8: output-path derivation keeps the directory, appends `_edited` to
the stem, keeps the extension and falls back to `mkv` without one — in
both the `State` method and the standalone `modify_path`. -/
theorem output_path_derivation :
    (generate_output_path { initState with input := "/a/b/clip.mov" }).output
      = "/a/b/clip_edited.mov" ∧
    (generate_output_path { initState with input := "/a/b/clip" }).output
      = "/a/b/clip_edited.mkv" ∧
    modify_path "/a/b/clip.mov" = "/a/b/clip_edited.mov" ∧
    modify_path "/a/b/clip" = "/a/b/clip_edited.mkv" := by
  refine ⟨?_, ?_, ?_, ?_⟩ <;> decide

/-- C3 (amended): a successful probe sets `end` to the probed duration,
leaves `start` unchanged, sets `use_video`/`use_audio` to true exactly
when the single consumed stream scan finds such a track (leaving them
unchanged otherwise), and regenerates the output path exactly when it is
empty or was itself auto-generated; a nonempty user-typed output
(`Message::OutputChange` clears the generated flag) is preserved. -/
theorem update_from_input_reconcile (s : State) (c : Container) (str : String)
    (hne : str.isEmpty = false) :
    ((update_from_input s c).end_ = (c.duration : ℚ) / 1000000) ∧
    ((update_from_input s c).start = s.start) ∧
    ((update_from_input s c).use_video =
      (s.use_video ||
        (findSplit (fun t => decide (t = MediaType.video)) c.streams).isSome)) ∧
    ((update_from_input s c).use_audio =
      (s.use_audio ||
        (findSplit (fun t => decide (t = MediaType.audio))
          ((findSplit (fun t => decide (t = MediaType.video))
            c.streams).getD [])).isSome)) ∧
    ((s.output.isEmpty || s.output_is_generated) = false →
      (update_from_input s c).output = s.output ∧
      (update_from_input s c).output_is_generated = false) ∧
    ((s.output.isEmpty || s.output_is_generated) = true →
      (update_from_input s c).output_is_generated = true) ∧
    ((update_from_input (outputChange s str) c).output = str) := by
  unfold update_from_input outputChange generate_output_path
  by_cases hv : (findSplit (fun t => decide (t = MediaType.video)) c.streams).isSome <;>
    by_cases ha : (findSplit (fun t => decide (t = MediaType.audio))
        ((findSplit (fun t => decide (t = MediaType.video)) c.streams).getD [])).isSome <;>
    by_cases hg : s.output.isEmpty = true <;>
    by_cases hg2 : s.output_is_generated = true <;>
    simp_all

/-- Witness for `update_from_input_reconcile` at a concrete state. -/
theorem update_from_input_reconcile_witness :
    ("user.mkv".isEmpty = false) ∧
    (((update_from_input { initState with start := 2 }
        ⟨[MediaType.video], 7000000⟩).end_ = ((7000000 : ℤ) : ℚ) / 1000000) ∧
     ((update_from_input { initState with start := 2 }
        ⟨[MediaType.video], 7000000⟩).start =
        ({ initState with start := 2 } : State).start) ∧
     ((update_from_input { initState with start := 2 }
        ⟨[MediaType.video], 7000000⟩).use_video =
        (({ initState with start := 2 } : State).use_video ||
          (findSplit (fun t => decide (t = MediaType.video))
            [MediaType.video]).isSome)) ∧
     ((update_from_input { initState with start := 2 }
        ⟨[MediaType.video], 7000000⟩).use_audio =
        (({ initState with start := 2 } : State).use_audio ||
          (findSplit (fun t => decide (t = MediaType.audio))
            ((findSplit (fun t => decide (t = MediaType.video))
              [MediaType.video]).getD [])).isSome)) ∧
     ((({ initState with start := 2 } : State).output.isEmpty ||
        ({ initState with start := 2 } : State).output_is_generated) = false →
       (update_from_input { initState with start := 2 }
          ⟨[MediaType.video], 7000000⟩).output =
          ({ initState with start := 2 } : State).output ∧
       (update_from_input { initState with start := 2 }
          ⟨[MediaType.video], 7000000⟩).output_is_generated = false) ∧
     ((({ initState with start := 2 } : State).output.isEmpty ||
        ({ initState with start := 2 } : State).output_is_generated) = true →
       (update_from_input { initState with start := 2 }
          ⟨[MediaType.video], 7000000⟩).output_is_generated = true) ∧
     ((update_from_input (outputChange { initState with start := 2 } "user.mkv")
        ⟨[MediaType.video], 7000000⟩).output = "user.mkv")) :=
  ⟨by decide,
   update_from_input_reconcile { initState with start := 2 }
     ⟨[MediaType.video], 7000000⟩ "user.mkv" (by decide)⟩

/-- C3 counterexample: probing a video-only container from a state with
`start = 3`, a stale `use_audio = true` and a user-typed output leaves
`start = 3` (the claimed reset to 0 does not happen) and `use_audio`
remains true although no audio track is present. -/
theorem update_from_input_counterexample :
    (update_from_input
        { initState with start := 3, use_audio := true, output := "keep.mkv" }
        ⟨[MediaType.video], 5000000⟩).start = 3 ∧
    (3 : ℚ) ≠ 0 ∧
    (update_from_input
        { initState with start := 3, use_audio := true, output := "keep.mkv" }
        ⟨[MediaType.video], 5000000⟩).use_audio = true := by
  refine ⟨by decide, by norm_num, by decide⟩

/-- C4: `update_video_params` walks one consumed stream iterator, so the
stream order `[audio, video]` is probed as `use_audio = false` (and hence
`use_extra_streams = true`), contradicting the claim — and the function's
own doc comment — that the flags reflect track presence regardless of
order; the `[video, audio]` order yields the claimed flags, with a 12.5 s
duration either way. -/
theorem update_video_params_order_bug :
    (update_video_params initMedia
        ⟨[MediaType.audio, MediaType.video], 12500000⟩).1.use_video = true ∧
    (update_video_params initMedia
        ⟨[MediaType.audio, MediaType.video], 12500000⟩).1.use_audio = false ∧
    (update_video_params initMedia
        ⟨[MediaType.audio, MediaType.video], 12500000⟩).1.use_extra_streams = true ∧
    (update_video_params initMedia
        ⟨[MediaType.video, MediaType.audio], 12500000⟩).1 =
      { initMedia with use_video := true, use_audio := true,
                       use_subs := false, use_extra_streams := false } ∧
    (update_video_params initMedia
        ⟨[MediaType.video, MediaType.audio], 12500000⟩).2 = 25/2 := by
  refine ⟨by decide, by decide, by decide, by decide, ?_⟩
  show ((12500000 : ℤ) : ℚ) / 1000000 = 25/2
  norm_num

/-! ## media.rs: in-process frame decoding -/

/-- `Preview` from `src/media.rs:11-16`: a decode request carrying the
prior content hash used for the decode short-circuit. -/
structure PreviewReq where
  seek : ℤ
  input : String
  prev_hash : ℕ
  deriving DecidableEq, Repr

/-- The ffmpeg errors this code distinguishes (`ffmpeg::Error`): the
`Other { errno }` family, the missing-stream marker, and all remaining
errors abstracted by a tag. -/
inductive FF
  | other (errno : ℤ)
  | streamNotFound
  | failure (tag : ℕ)
  deriving DecidableEq, Repr

/-- `PreviewError` from `src/media.rs:18-23`. -/
inductive PreviewError
  | raw (e : FF)
  | sameHash
  | noPackets
  deriving DecidableEq, Repr

/-- A decoded video frame as handed over by `receive_frame`/the scaler. -/
structure Frame where
  width : ℕ
  height : ℕ
  data : List ℕ
  deriving DecidableEq, Repr

/-- Outcome of `send_packet` followed by `receive_frame` on one packet. -/
inductive SendRecv
  | sendErr (e : FF)
  | recv (r : Except FF Frame)

/-- An abstract stateful video decoder: `step` consumes one packet payload
and reports the combined send/receive outcome. -/
structure Codec where
  D : Type
  init : D
  step : D → List ℕ → D × SendRecv

/-- An RGBA image (`iced` `widget::image::Handle::from_rgba`). -/
structure ImageHandle where
  width : ℕ
  height : ℕ
  rgba : List ℕ
  deriving DecidableEq, Repr

/-- The RGBA packing loop (`src/media.rs:107-113`): a full-opacity alpha
byte is pushed after every third RGB byte; `i` is the `enumerate` index. -/
def rgbaPack (i : ℕ) : List ℕ → List ℕ
  | [] => []
  | b :: rest =>
    if (i + 1) % 3 = 0 then b :: 255 :: rgbaPack (i + 1) rest
    else b :: rgbaPack (i + 1) rest

/-- A successfully opened input container: the best-video heuristic's
choice, decoder/scaler construction results, the per-target seek results,
and the packet stream (stream index, payload) following each seek target. -/
structure DecContainer where
  codec : Codec
  scaler : Frame → Except FF Frame
  bestVideo : Option ℕ
  decoderInit : Except FF Unit
  scalerInit : Except FF Unit
  seekResult : ℤ → Except FF Unit
  packetsAfter : ℤ → List (ℕ × List ℕ)

/-- The packets of the selected stream in container order
(`src/media.rs:73-79`). -/
def selectedPackets (c : DecContainer) (idx : ℕ) (seek : ℤ) : List (List ℕ) :=
  (c.packetsAfter seek).filterMap
    (fun sp => if sp.1 = idx then some sp.2 else none)

/-- The packet loop of `Preview::decode_preview_image`
(`src/media.rs:80-121`): skip empty packets, hash, short-circuit on the
prior hash, submit, treat errno-11 receive as "not ready", scale and pack
on success. The first component records the packets actually submitted to
the decoder, making "no decode attempt" observable. -/
def packetLoop (hashFn : List ℕ → ℕ) (prev : ℕ) (codec : Codec)
    (scaler : Frame → Except FF Frame) :
    codec.D → List (List ℕ) →
      List (List ℕ) × Except PreviewError (ImageHandle × ℕ)
  | _, [] => ([], .error .noPackets)
  | d, p :: ps =>
    if p = [] then packetLoop hashFn prev codec scaler d ps
    else
      let new_hash := hashFn p
      if new_hash = prev then ([], .error .sameHash)
      else
        match codec.step d p with
        | (_, .sendErr e) => ([p], .error (.raw e))
        | (d2, .recv (.error e)) =>
          if e = FF.other 11 then
            let r := packetLoop hashFn prev codec scaler d2 ps
            (p :: r.1, r.2)
          else ([p], .error (.raw e))
        | (_, .recv (.ok decoded)) =>
          match scaler decoded with
          | .error e => ([p], .error (.raw e))
          | .ok rgb =>
            ([p], .ok (⟨rgb.width, rgb.height, rgbaPack 0 rgb.data⟩, new_hash))

/-- `Preview::decode_preview_image` (`src/media.rs:38-122`): open the
input, pick the best video stream, build decoder and scaler, seek, then
run the packet loop; each `?` failure surfaces as `PreviewError::Raw`. -/
def decode_preview_image (hashFn : List ℕ → ℕ)
    (openRes : Except FF DecContainer) (req : PreviewReq) :
    List (List ℕ) × Except PreviewError (ImageHandle × ℕ) :=
  match openRes with
  | .error e => ([], .error (.raw e))
  | .ok c =>
    match c.bestVideo with
    | none => ([], .error (.raw .streamNotFound))
    | some idx =>
      match c.decoderInit with
      | .error e => ([], .error (.raw e))
      | .ok _ =>
        match c.scalerInit with
        | .error e => ([], .error (.raw e))
        | .ok _ =>
          match c.seekResult req.seek with
          | .error e => ([], .error (.raw e))
          | .ok _ =>
            packetLoop hashFn req.prev_hash c.codec c.scaler c.codec.init
              (selectedPackets c idx req.seek)

/-- The first non-empty packet of a selected packet stream. -/
def firstNonEmpty : List (List ℕ) → Option (List ℕ)
  | [] => none
  | p :: ps => if p = [] then firstNonEmpty ps else some p

/-! ### Decode-loop theorems (C6, C7) -/

theorem packetLoop_first (hashFn : List ℕ → ℕ) (prev : ℕ) (codec : Codec)
    (scaler : Frame → Except FF Frame) (ps : List (List ℕ)) :
    ∀ (d : codec.D) (p : List ℕ),
      firstNonEmpty ps = some p → hashFn p = prev →
      packetLoop hashFn prev codec scaler d ps = ([], .error .sameHash) := by
  induction ps with
  | nil =>
    intro d p h1 h2
    simp [firstNonEmpty] at h1
  | cons q qs ih =>
    intro d p h1 h2
    by_cases hq : q = []
    · subst hq
      simp only [firstNonEmpty, if_pos] at h1
      simp only [packetLoop, if_pos]
      exact ih d p h1 h2
    · simp only [firstNonEmpty, if_neg hq] at h1
      cases h1
      simp [packetLoop, hq, h2]

theorem packetLoop_rerun (hashFn : List ℕ → ℕ) (prev : ℕ) (codec : Codec)
    (scaler : Frame → Except FF Frame) (ps : List (List ℕ)) :
    ∀ (d : codec.D) (hdl : ImageHandle) (h : ℕ),
      (packetLoop hashFn prev codec scaler d ps).2 = .ok (hdl, h) →
      (packetLoop hashFn h codec scaler d ps).2 = .error .sameHash := by
  induction ps with
  | nil =>
    intro d hdl h hres
    simp [packetLoop] at hres
  | cons q qs ih =>
    intro d hdl h hres
    by_cases hq : q = []
    · simp only [packetLoop, if_pos hq] at hres ⊢
      exact ih d hdl h hres
    · by_cases h1 : hashFn q = prev
      · simp [packetLoop, hq, h1] at hres
      · by_cases h2 : hashFn q = h
        · simp [packetLoop, hq, h2]
        · rcases hstep : codec.step d q with ⟨d2, sr⟩
          rcases sr with e | r
          · simp [packetLoop, hq, h1, hstep] at hres
          · rcases r with e | fr
            · by_cases he : e = FF.other 11
              · subst he
                simp only [packetLoop, if_neg hq] at hres ⊢
                rw [if_neg h1] at hres
                rw [if_neg h2]
                rw [hstep] at hres ⊢
                simp only at hres ⊢
                exact ih d2 hdl h hres
              · simp [packetLoop, hq, h1, hstep, he] at hres
            · rcases hsc : scaler fr with e | rgb
              · simp [packetLoop, hq, h1, hstep, hsc] at hres
              · simp [packetLoop, hq, h1, hstep, hsc] at hres
                simp_all

/-- C6: (a) when the first non-empty packet of the selected stream after
the seek hashes to `prior_content_hash`, the decode stops before
submitting anything (empty submission log) and fails with `SameHash`;
(b) re-decoding the same request with `prev_hash` set to the content hash
a successful decode returned yields `SameHash`. -/
theorem hash_short_circuit :
    (∀ (hashFn : List ℕ → ℕ) (c : DecContainer) (idx : ℕ) (req : PreviewReq)
        (p : List ℕ),
      c.bestVideo = some idx → c.decoderInit = .ok () → c.scalerInit = .ok () →
      c.seekResult req.seek = .ok () →
      firstNonEmpty (selectedPackets c idx req.seek) = some p →
      hashFn p = req.prev_hash →
      decode_preview_image hashFn (.ok c) req = ([], .error .sameHash)) ∧
    (∀ (hashFn : List ℕ → ℕ) (c : DecContainer) (req : PreviewReq)
        (hdl : ImageHandle) (h : ℕ),
      (decode_preview_image hashFn (.ok c) req).2 = .ok (hdl, h) →
      (decode_preview_image hashFn (.ok c) ⟨req.seek, req.input, h⟩).2 =
        .error .sameHash) := by
  constructor
  · intro hashFn c idx req p hb hd hs hk hf hh
    obtain ⟨codec, scaler, bv, di, si, sk, pk⟩ := c
    simp only at hb hd hs hk hf
    unfold decode_preview_image
    simp only
    rw [hb, hd, hs, hk]
    exact packetLoop_first hashFn req.prev_hash codec scaler _ codec.init p hf hh
  · intro hashFn c req hdl h hres
    obtain ⟨codec, scaler, bv, di, si, sk, pk⟩ := c
    unfold decode_preview_image at hres ⊢
    simp only at hres ⊢
    rcases bv with _ | idx
    · simp at hres
    rcases di with e | u
    · simp at hres
    rcases si with e | u2
    · simp at hres
    rcases hsk : sk req.seek with e | u3
    · rw [hsk] at hres
      simp at hres
    · rw [hsk] at hres
      simp at hres ⊢
      exact packetLoop_rerun hashFn req.prev_hash codec scaler _ codec.init hdl h hres

/-- C7: in the packet loop, (a) zero-length packets are skipped without a
decode attempt; (b) an errno-11 "frame not ready" receive is benign and
the loop continues after recording the submission; (c) a send error or any
other receive error aborts with `Raw`; (d) exhaustion without a frame
yields `NoPackets`. -/
theorem packet_loop_edge_cases :
    (∀ (hashFn : List ℕ → ℕ) (prev : ℕ) (codec : Codec)
        (scaler : Frame → Except FF Frame) (d : codec.D) (ps : List (List ℕ)),
      packetLoop hashFn prev codec scaler d ([] :: ps) =
        packetLoop hashFn prev codec scaler d ps) ∧
    (∀ (hashFn : List ℕ → ℕ) (prev : ℕ) (codec : Codec)
        (scaler : Frame → Except FF Frame) (d d2 : codec.D)
        (ps : List (List ℕ)) (p : List ℕ),
      p ≠ [] → hashFn p ≠ prev →
      codec.step d p = (d2, .recv (.error (FF.other 11))) →
      packetLoop hashFn prev codec scaler d (p :: ps) =
        (p :: (packetLoop hashFn prev codec scaler d2 ps).1,
         (packetLoop hashFn prev codec scaler d2 ps).2)) ∧
    (∀ (hashFn : List ℕ → ℕ) (prev : ℕ) (codec : Codec)
        (scaler : Frame → Except FF Frame) (d d2 : codec.D)
        (ps : List (List ℕ)) (p : List ℕ) (e : FF),
      p ≠ [] → hashFn p ≠ prev →
      codec.step d p = (d2, .sendErr e) →
      packetLoop hashFn prev codec scaler d (p :: ps) =
        ([p], .error (.raw e))) ∧
    (∀ (hashFn : List ℕ → ℕ) (prev : ℕ) (codec : Codec)
        (scaler : Frame → Except FF Frame) (d d2 : codec.D)
        (ps : List (List ℕ)) (p : List ℕ) (e : FF),
      p ≠ [] → hashFn p ≠ prev →
      codec.step d p = (d2, .recv (.error e)) → e ≠ FF.other 11 →
      packetLoop hashFn prev codec scaler d (p :: ps) =
        ([p], .error (.raw e))) ∧
    (∀ (hashFn : List ℕ → ℕ) (prev : ℕ) (codec : Codec)
        (scaler : Frame → Except FF Frame) (d : codec.D),
      packetLoop hashFn prev codec scaler d [] = ([], .error .noPackets)) := by
  refine ⟨?_, ?_, ?_, ?_, ?_⟩
  · intro hashFn prev codec scaler d ps
    simp [packetLoop]
  · intro hashFn prev codec scaler d d2 ps p hp hh hstep
    simp [packetLoop, hp, hh, hstep]
  · intro hashFn prev codec scaler d d2 ps p e hp hh hstep
    simp [packetLoop, hp, hh, hstep]
  · intro hashFn prev codec scaler d d2 ps p e hp hh hstep he
    simp [packetLoop, hp, hh, hstep, he]
  · intro hashFn prev codec scaler d
    simp [packetLoop]

/-! ### Concrete decode witnesses -/

/-- The length hash: a stand-in deterministic packet hash. -/
def witHash : List ℕ → ℕ := fun l => l.length

/-- A one-state decoder that always produces a fixed frame. -/
def witCodec : Codec :=
  ⟨Unit, (), fun _ _ => ((), .recv (.ok ⟨1, 1, [5, 6, 7]⟩))⟩

/-- A container with one video stream (index 0) carrying one packet. -/
def witContainer : DecContainer :=
  { codec := witCodec, scaler := fun f => .ok f, bestVideo := some 0,
    decoderInit := .ok (), scalerInit := .ok (),
    seekResult := fun _ => .ok (), packetsAfter := fun _ => [(0, [7])] }

/-- A decoder whose outcome depends on the packet, exercising every branch
of the packet loop. -/
def witCodec7 : Codec :=
  ⟨Unit, (), fun _ p =>
    ((), if p = [1] then .recv (.error (FF.other 11))
         else if p = [2] then .sendErr (FF.failure 0)
         else if p = [3] then .recv (.error (FF.failure 1))
         else .recv (.ok ⟨1, 1, []⟩))⟩

/-- The identity scaler. -/
def wScaler : Frame → Except FF Frame := fun f => .ok f

/-- Witness for `hash_short_circuit`: a first decode succeeds with content
hash 1; repeating it with `prev_hash = 1` fails with `SameHash`, before
anything is submitted. -/
theorem hash_short_circuit_witness :
    ((decode_preview_image witHash (.ok witContainer) ⟨0, "in", 0⟩).2 =
      .ok (⟨1, 1, [5, 6, 7, 255]⟩, 1)) ∧
    ((decode_preview_image witHash (.ok witContainer) ⟨0, "in", 1⟩).2 =
      .error .sameHash) ∧
    (decode_preview_image witHash (.ok witContainer) ⟨0, "in", 1⟩ =
      ([], .error .sameHash)) :=
  ⟨rfl,
   hash_short_circuit.2 witHash witContainer ⟨0, "in", 0⟩ ⟨1, 1, [5, 6, 7, 255]⟩ 1 rfl,
   hash_short_circuit.1 witHash witContainer 0 ⟨0, "in", 1⟩ [7] rfl rfl rfl rfl rfl rfl⟩

/-- Witness for `packet_loop_edge_cases`, one concrete packet per branch. -/
theorem packet_loop_edge_cases_witness :
    (packetLoop witHash 0 witCodec7 wScaler () ([] :: [[9]]) =
      packetLoop witHash 0 witCodec7 wScaler () [[9]]) ∧
    (packetLoop witHash 0 witCodec7 wScaler () [[1]] =
      ([1] :: (packetLoop witHash 0 witCodec7 wScaler () []).1,
       (packetLoop witHash 0 witCodec7 wScaler () []).2)) ∧
    (packetLoop witHash 0 witCodec7 wScaler () [[2]] =
      ([[2]], .error (.raw (FF.failure 0)))) ∧
    (packetLoop witHash 0 witCodec7 wScaler () [[3]] =
      ([[3]], .error (.raw (FF.failure 1)))) ∧
    (packetLoop witHash 0 witCodec7 wScaler () [] = ([], .error .noPackets)) :=
  ⟨packet_loop_edge_cases.1 witHash 0 witCodec7 wScaler () [[9]],
   packet_loop_edge_cases.2.1 witHash 0 witCodec7 wScaler () () [] [1]
     (by decide) (by decide) rfl,
   packet_loop_edge_cases.2.2.1 witHash 0 witCodec7 wScaler () () [] [2]
     (FF.failure 0) (by decide) (by decide) rfl,
   packet_loop_edge_cases.2.2.2.1 witHash 0 witCodec7 wScaler () () [] [3]
     (FF.failure 1) (by decide) (by decide) rfl (by decide),
   packet_loop_edge_cases.2.2.2.2 witHash 0 witCodec7 wScaler ()⟩
